import Mathlib

/-!
Verification development for the qrRobust-scanner repository.

Shallow embedding of the core subsystems named by the specification:
the tiered multi-window rate limiter (`app/services/rate_limiter.py`),
the rate-limit middleware (`app/middleware/rate_limit.py`),
the style validator's color normalization (`app/services/qr_designer.py`),
the multi-strategy decode pipeline (`app/utils/qr_processor.py`), and
the crop helper (`app.py`).

Machine integers are modelled as `Nat`/`Int` (Python integers are unbounded,
so no wrap-around modelling is needed).  Redis is modelled as a total map
from structured keys to counts, with an absent key reading as `0`, exactly
as the Python coerces `None` to `0`.
-/

namespace QrScanner

/-! ## Rate limiter: data model

`rate_limiter.py` builds flat Redis key strings
`rate_limit:{identifier}:{window}:{bucket}[:{endpoint}]`.  We model the key
structurally: one field per component of the string.  The store maps keys to
counts; `redis.get` returning `None` is read as count `0` (the Python code
performs exactly that coercion). -/

inductive Window where
  | minute
  | hour
  | day
deriving DecidableEq, Repr

structure RKey where
  identifier : String
  window : Window
  bucket : Nat
  endpoint : Option String
deriving DecidableEq, Repr

def Store : Type := RKey → Nat

/-- A fresh store: no keys present, every `get` reads 0. -/
def Store.empty : Store := fun _ => 0

/-- `INCR key` on the store (TTL refresh does not affect counts). -/
def Store.incr (s : Store) (k : RKey) : Store :=
  fun k2 => if k2 = k then s k + 1 else s k2

/-- `RateLimiter.get_rate_limits`: per-minute, per-hour, per-day caps for a
tier, with unknown tiers falling back to the `free` limits. -/
def get_rate_limits (tier : String) : Nat × Nat × Nat :=
  if tier = "free" then (10, 100, 1000)
  else if tier = "pro" then (60, 1000, 10000)
  else if tier = "business" then (120, 5000, 50000)
  else if tier = "enterprise" then (300, 20000, 200000)
  else (10, 100, 1000)

/-- The dictionary `RateLimiter.is_allowed` returns.  `counts` is present only
on the allowed path, `retry_after` is `None` on the allowed path. -/
structure RLResult where
  allowed : Bool
  limit_type : String
  limit : Nat
  remaining : Int
  reset_time : Nat
  retry_after : Option Int
  counts : Option (Nat × Nat × Nat)
deriving DecidableEq, Repr

/-- The three window keys `is_allowed` builds for a call at Unix time `t`. -/
def minuteKey (identifier : String) (endpoint : Option String) (t : Nat) : RKey :=
  ⟨identifier, Window.minute, t / 60, endpoint⟩

def hourKey (identifier : String) (endpoint : Option String) (t : Nat) : RKey :=
  ⟨identifier, Window.hour, t / 3600, endpoint⟩

def dayKey (identifier : String) (endpoint : Option String) (t : Nat) : RKey :=
  ⟨identifier, Window.day, t / 86400, endpoint⟩

/-- `RateLimiter.is_allowed(identifier, tier, endpoint)` called at Unix time
`t` against store `s`.  Mirrors the source line by line: read the minute
counter and reject if it is at or above the cap, then the hour counter, then
the day counter; otherwise increment all three keys via the pipeline and
report `remaining` as the minimum of the three post-increment remainders. -/
def is_allowed (s : Store) (identifier : String) (tier : String)
    (endpoint : Option String) (t : Nat) : RLResult × Store :=
  let limits := get_rate_limits tier
  let mk := minuteKey identifier endpoint t
  let hk := hourKey identifier endpoint t
  let dk := dayKey identifier endpoint t
  let minute_count := s mk
  if limits.1 ≤ minute_count then
    (⟨false, "minute", limits.1, 0, (t / 60 + 1) * 60,
      some ((((t / 60 + 1) * 60 : Nat) : Int) - (t : Int)), none⟩, s)
  else
    let hour_count := s hk
    if limits.2.1 ≤ hour_count then
      (⟨false, "hour", limits.2.1, 0, (t / 3600 + 1) * 3600,
        some ((((t / 3600 + 1) * 3600 : Nat) : Int) - (t : Int)), none⟩, s)
    else
      let day_count := s dk
      if limits.2.2 ≤ day_count then
        (⟨false, "day", limits.2.2, 0, (t / 86400 + 1) * 86400,
          some ((((t / 86400 + 1) * 86400 : Nat) : Int) - (t : Int)), none⟩, s)
      else
        let s2 := ((s.incr mk).incr hk).incr dk
        (⟨true, "minute", limits.1,
          min (min ((limits.1 : Int) - (minute_count + 1))
                   ((limits.2.1 : Int) - (hour_count + 1)))
              ((limits.2.2 : Int) - (day_count + 1)),
          (t / 60 + 1) * 60, none,
          some (minute_count + 1, hour_count + 1, day_count + 1)⟩, s2)

/-- Run a sequence of `is_allowed` calls (one timestamp per call) for a fixed
identifier/tier/endpoint, threading the store; returns the results in call
order together with the final store. -/
def callSeq (s : Store) (identifier : String) (tier : String)
    (endpoint : Option String) : List Nat → List RLResult × Store
  | [] => ([], s)
  | t :: ts =>
      let (r, s2) := is_allowed s identifier tier endpoint t
      let (rs, s3) := callSeq s2 identifier tier endpoint ts
      (r :: rs, s3)

/-! ## Rate limiter: interleaved execution

`is_allowed` performs its Redis traffic in four separate round trips:
`GET minute_key`, `GET hour_key`, `GET day_key`, and finally one pipelined
batch of increments.  Nothing groups the reads with the increments (no
`WATCH`/`MULTI`, no Lua script), so between any two of those round trips a
concurrent call for the same identifier may act on the store.  We model one
call as a small-step program whose atomic steps are exactly those round
trips (granting the pipeline full atomicity, which is generous to the code),
and interleave two such programs under an explicit schedule. -/

inductive RLPC where
  | checkMinute
  | checkHour
  | checkDay
  | incrAll
  | done (allowed : Bool)
deriving DecidableEq, Repr

/-- Thread-local state of one in-flight `is_allowed` call: its program
counter plus the counter values it has read so far. -/
structure RLThread where
  pc : RLPC
  minute_count : Nat
  hour_count : Nat
  day_count : Nat
deriving DecidableEq, Repr

def RLThread.start : RLThread := ⟨RLPC.checkMinute, 0, 0, 0⟩

/-- One atomic step of an in-flight `is_allowed` call (identifier, tier,
endpoint and time fixed for the call).  Each step is one Redis round trip of
the source, with the purely local cap comparison folded into the read that
feeds it. -/
def rlStep (identifier tier : String) (endpoint : Option String) (t : Nat)
    (th : RLThread) (s : Store) : RLThread × Store :=
  let limits := get_rate_limits tier
  match th.pc with
  | RLPC.checkMinute =>
      let c := s (minuteKey identifier endpoint t)
      if limits.1 ≤ c then (⟨RLPC.done false, c, th.hour_count, th.day_count⟩, s)
      else (⟨RLPC.checkHour, c, th.hour_count, th.day_count⟩, s)
  | RLPC.checkHour =>
      let c := s (hourKey identifier endpoint t)
      if limits.2.1 ≤ c then (⟨RLPC.done false, th.minute_count, c, th.day_count⟩, s)
      else (⟨RLPC.checkDay, th.minute_count, c, th.day_count⟩, s)
  | RLPC.checkDay =>
      let c := s (dayKey identifier endpoint t)
      if limits.2.2 ≤ c then (⟨RLPC.done false, th.minute_count, th.hour_count, c⟩, s)
      else (⟨RLPC.incrAll, th.minute_count, th.hour_count, c⟩, s)
  | RLPC.incrAll =>
      let s2 := ((s.incr (minuteKey identifier endpoint t)).incr
                  (hourKey identifier endpoint t)).incr
                  (dayKey identifier endpoint t)
      (⟨RLPC.done true, th.minute_count, th.hour_count, th.day_count⟩, s2)
  | RLPC.done _ => (th, s)

/-- Interleave two in-flight calls (A and B) sharing identifier, tier,
endpoint and time, under a schedule: `false` steps thread A, `true` steps
thread B. -/
def rlRace (identifier tier : String) (endpoint : Option String) (t : Nat) :
    List Bool → RLThread × RLThread × Store → RLThread × RLThread × Store
  | [], st => st
  | b :: sched, (a, b2, s) =>
      if b then
        let (b3, s2) := rlStep identifier tier endpoint t b2 s
        rlRace identifier tier endpoint t sched (a, b3, s2)
      else
        let (a2, s2) := rlStep identifier tier endpoint t a s
        rlRace identifier tier endpoint t sched (a2, b2, s2)

/-! ## Rate limit middleware

`RateLimitMiddleware.dispatch` from `app/middleware/rate_limit.py`.  A
response is a status code plus response headers; `call_next`'s result (the
downstream application response) is passed in as data.  Header assignment is
modelled as appending the (name, value) pair. -/

structure HttpResponse where
  status : Nat
  headers : List (String × String)
deriving DecidableEq, Repr

/-- Python's `s.startswith(p)`, character by character. -/
def pathStarts (s p : String) : Bool := p.toList.isPrefixOf s.toList

def excluded_paths : List String :=
  ["/docs", "/redoc", "/openapi.json", "/health", "/favicon.ico"]

/-- `dispatch(request, call_next)`: `path` is `request.url.path`,
`redisAvailable` is the outcome of the `is_redis_available` probe (the
source's `ping` wrapped in try/except), `identifier`/`tier` are what
`_get_identifier`/`_get_user_tier` resolved, `downstream` is the response
`call_next` produced, and `t` is the call time for the limiter.  Returns the
caller-facing response and the resulting store. -/
def dispatch (path : String) (redisAvailable : Bool)
    (identifier : Option String) (tier : String) (s : Store) (t : Nat)
    (downstream : HttpResponse) : HttpResponse × Store :=
  if excluded_paths.any (fun p => pathStarts path p) then (downstream, s)
  else if ¬ pathStarts path "/api/" then (downstream, s)
  else if ¬ redisAvailable then
    (⟨downstream.status,
      downstream.headers ++
        [("X-RateLimit-Status", "disabled"),
         ("X-RateLimit-Reason", "redis-unavailable")]⟩, s)
  else
    match identifier with
    | none => (downstream, s)
    | some ident =>
        let (r, s2) := is_allowed s ident tier (some path) t
        if ¬ r.allowed then
          (⟨429,
            [("X-RateLimit-Limit", toString r.limit),
             ("X-RateLimit-Remaining", toString r.remaining),
             ("X-RateLimit-Reset", toString r.reset_time),
             ("Retry-After", toString r.retry_after)]⟩, s2)
        else
          let base := downstream.headers ++
            [("X-RateLimit-Limit", toString r.limit),
             ("X-RateLimit-Remaining", toString r.remaining),
             ("X-RateLimit-Reset", toString r.reset_time)]
          match r.counts with
          | some (cm, ch, cd) =>
              (⟨downstream.status,
                base ++
                  [("X-RateLimit-Count-Minute", toString cm),
                   ("X-RateLimit-Count-Hour", toString ch),
                   ("X-RateLimit-Count-Day", toString cd)]⟩, s2)
          | none => (⟨downstream.status, base⟩, s2)

/-! ## Style validator: color normalization

`QRCodeDesigner._validate_color` from `app/services/qr_designer.py`. -/

/-- The character class of the source's membership test
`c in "0123456789ABCDEFabcdef"`. -/
def hexChars : List Char := "0123456789ABCDEFabcdef".toList

def isHexChar (c : Char) : Bool := hexChars.elem c

/-- `color.startswith('#')`, on the character list. -/
def startsWithHash (cs : List Char) : Bool :=
  match cs with
  | '#' :: _ => true
  | _ => false

/-- The hex-digit body the validator works with: the input with a `#`
prepended when missing, then everything after the leading `#` filtered down
to hex digits (the source's generator expression over `color[1:]`). -/
def hexBody (color : String) : List Char :=
  let cs := color.toList
  let c1 := if startsWithHash cs then cs else '#' :: cs
  (c1.drop 1).filter isHexChar

/-- `_validate_color(color)`: prepend `#` if missing, drop non-hex
characters, expand a 3-digit body by doubling each digit, replace any body
whose length is neither 3 nor 6 by `"#000000"`, and return the result
uppercased. -/
def validate_color (color : String) : String :=
  let body := hexBody color
  let res :=
    match body with
    | [a, b, c] => ['#', a, a, b, b, c, c]
    | l => if l.length = 6 then '#' :: l else "#000000".toList
  String.mk (res.map Char.toUpper)

/-- A valid hex color string in the sense of the specification: `#` followed
by six hex digits (`#RRGGBB`), or the three-digit shorthand `#RGB`.  Stated
from the spec's words, for comparison with what `validate_color` accepts. -/
def isValidHexColor (s : String) : Bool :=
  startsWithHash s.toList &&
    (s.toList.drop 1).all isHexChar &&
    ((s.toList.drop 1).length = 6 || (s.toList.drop 1).length = 3)

/-- `#` followed by exactly six uppercase hex digits. -/
def isCanonicalHexColor (s : String) : Bool :=
  match s.toList with
  | '#' :: rest =>
      rest.length = 6 && rest.all (fun c => ("0123456789ABCDEF".toList).elem c)
  | _ => false

/-! ## Decode pipeline

`decode_qr_code` / `decode_with_zxing` from `app/utils/qr_processor.py`.
The decoder engines (zxing-cpp's `read_barcodes`, OpenCV's
`QRCodeDetector.detectAndDecode`) and the pixel-level preprocessing are
third-party code operating on raster buffers; the image source is therefore
modelled as a record of which loads succeed and what each engine attempt
would report on it.  `detectAndDecode` reports the empty string when nothing
is found (the source tests it with Python truthiness).  Every pipeline
function additionally returns how many decoder-engine invocations it
performed on the image, so that "no engine is invoked" is a provable
statement. -/

/-- One zxing-cpp result: its payload text and whether its reported format
is `BarcodeFormat.QRCode`. -/
structure ZxingSymbol where
  text : String
  isQRCode : Bool
deriving DecidableEq, Repr

structure ImageFile where
  /-- `PIL.Image.open` succeeds on the source. -/
  pilReadable : Bool
  /-- `cv2.imread` returns a non-`None` array for the source. -/
  cvReadable : Bool
  /-- `import zxingcpp` succeeds (the `ImportError` fallback otherwise). -/
  zxingAvailable : Bool
  /-- `zxingcpp.read_barcodes` raises on this image (generic except path). -/
  zxingRaises : Bool
  /-- What `zxingcpp.read_barcodes` reports on the grayscaled image. -/
  zxingResults : List ZxingSymbol
  /-- `detectAndDecode` on the color image (empty string = nothing found). -/
  cvDirect : String
  /-- `detectAndDecode` on the grayscale image. -/
  cvGray : String
  /-- `detectAndDecode` after the resize-if-small + Otsu threshold pass. -/
  cvThresh : String
deriving DecidableEq, Repr

/-- `decode_with_zxing(image_path)`: returns the decoded QR payloads (or
`None`), paired with the number of decoder-engine invocations made on the
image.  `Image.open` failing or `read_barcodes` raising is caught inside and
yields `None`. -/
def decode_with_zxing (f : ImageFile) : Option (List String) × Nat :=
  if ¬ f.zxingAvailable then (none, 0)
  else if ¬ f.pilReadable then (none, 0)
  else if f.zxingRaises then (none, 1)
  else
    let results := f.zxingResults
    if results.isEmpty then (none, 1)
    else
      let decoded := (results.filter ZxingSymbol.isQRCode).map ZxingSymbol.text
      if decoded.isEmpty then (none, 1) else (some decoded, 1)

/-- The pair `decode_qr_code` returns: optional payload list, optional error
message. -/
def DecodeOutcome : Type := Option (List String) × Option String

/-- `decode_qr_code(image_path)`: zxing first; then `cv2.imread`, failing
with "Could not read the image file" when it returns `None`; then the three
OpenCV attempts (direct, grayscale, resize+threshold) in order; finally the
"No QR code found" outcome.  Also returns the total number of decoder-engine
invocations made on the image. -/
def decode_qr_code (f : ImageFile) : DecodeOutcome × Nat :=
  let (z, nz) := decode_with_zxing f
  match z with
  | some payloads => ((some payloads, none), nz)
  | none =>
      if ¬ f.cvReadable then ((none, some "Could not read the image file"), nz)
      else if f.cvDirect ≠ "" then ((some [f.cvDirect], none), nz + 1)
      else if f.cvGray ≠ "" then ((some [f.cvGray], none), nz + 2)
      else if f.cvThresh ≠ "" then ((some [f.cvThresh], none), nz + 3)
      else
        ((none,
          some "No QR code found in the image. Try using a clearer image with better contrast."),
         nz + 3)

/-- An unreadable/corrupt image source: neither PIL nor OpenCV can load it. -/
def ImageFile.unreadable (f : ImageFile) : Prop :=
  f.pilReadable = false ∧ f.cvReadable = false

instance : DecidablePred ImageFile.unreadable := fun f =>
  inferInstanceAs (Decidable (f.pilReadable = false ∧ f.cvReadable = false))

/-! ## Crop helper

`context_crop(image, box)` from `app.py`.  The box is `(left, top, right,
bottom)`; PIL gives the crop width `right - left` and height `bottom - top`.
The scale factor `max(100/w, 100/h)` and the products `w*scale`, `h*scale`
are computed in IEEE binary64 floats, so each float operation is modelled
by correct rounding (`fl64`): the divisions `100/w` and `100/h` are
correctly rounded doubles, `max` on doubles is exact, the int dimension is
converted to a double and the multiplication rounds once more, and `int()`
on the positive result truncates, i.e. floors.  A zero crop dimension makes
`100/dim` raise `ZeroDivisionError`, caught by the handler that returns
`None`; boxes of decoded symbols always have positive extent. -/

/-- Round a positive rational to the nearest IEEE binary64 double
(round to nearest, ties to even): the significand is scaled into
`[2^52, 2^53)` using the floor base-2 logarithm, rounded to an integer, and
scaled back.  The exponent is unbounded: overflow (beyond about `1.8e308`)
and subnormals (below about `2.2e-308`) are not represented; every value
reaching this function from `context_crop` under the theorems' dimension
bounds stays far inside the normal range, where this agrees with `float`
arithmetic exactly. -/
def fl64Pos (q : ℚ) : ℚ :=
  let e : Int := Int.log 2 q
  let m0 : ℚ := q * (2 : ℚ) ^ (52 - e)
  let n : Int := ⌊m0⌋
  let m : Int :=
    if m0 - n < 1 / 2 then n
    else if 1 / 2 < m0 - n then n + 1
    else if n % 2 = 0 then n else n + 1
  (m : ℚ) * (2 : ℚ) ^ (e - 52)

/-- IEEE binary64 rounding of a rational, any sign. -/
def fl64 (q : ℚ) : ℚ :=
  if q = 0 then 0 else if 0 < q then fl64Pos q else -fl64Pos (-q)

structure CropOut where
  /-- The region of the source image the pixels were taken from. -/
  srcLeft : Int
  srcTop : Int
  srcRight : Int
  srcBottom : Int
  /-- Width of the returned thumbnail. -/
  outW : Int
  /-- Height of the returned thumbnail. -/
  outH : Int
deriving DecidableEq, Repr

def context_crop (left top right bottom : Int) : Option CropOut :=
  let w : Int := right - left
  let h : Int := bottom - top
  if w ≤ 0 ∨ h ≤ 0 then none
  else if w < 100 ∨ h < 100 then
    let scale : ℚ := max (fl64 ((100 : ℚ) / (w : ℚ))) (fl64 ((100 : ℚ) / (h : ℚ)))
    some ⟨left, top, right, bottom,
      ⌊fl64 (fl64 (w : ℚ) * scale)⌋, ⌊fl64 (fl64 (h : ℚ) * scale)⌋⟩
  else
    some ⟨left, top, right, bottom, w, h⟩

/-! ## Rate limiter: sequential behaviour -/

/-- The store reached after `k` allowed calls for one identifier whose
timestamps all share minute bucket `b`: all three of that identifier's
window keys read `k`, every other key reads 0. -/
def uniformStore (identifier : String) (endpoint : Option String)
    (b k : Nat) : Store :=
  fun key =>
    if key = ⟨identifier, Window.minute, b, endpoint⟩ then k
    else if key = ⟨identifier, Window.hour, b / 60, endpoint⟩ then k
    else if key = ⟨identifier, Window.day, b / 1440, endpoint⟩ then k
    else 0

lemma uniformStore_zero (identifier : String) (endpoint : Option String)
    (b : Nat) : uniformStore identifier endpoint b 0 = Store.empty := by
  funext key
  simp [uniformStore, Store.empty]

lemma hour_bucket_of_minute_bucket {t b : Nat} (ht : t / 60 = b) :
    t / 3600 = b / 60 := by
  subst ht
  rw [Nat.div_div_eq_div_mul]

lemma day_bucket_of_minute_bucket {t b : Nat} (ht : t / 60 = b) :
    t / 86400 = b / 1440 := by
  subst ht
  rw [Nat.div_div_eq_div_mul]

lemma incr3_uniformStore (identifier : String) (endpoint : Option String)
    (b k : Nat) :
    (((uniformStore identifier endpoint b k).incr
        ⟨identifier, Window.minute, b, endpoint⟩).incr
        ⟨identifier, Window.hour, b / 60, endpoint⟩).incr
        ⟨identifier, Window.day, b / 1440, endpoint⟩ =
      uniformStore identifier endpoint b (k + 1) := by
  funext key
  by_cases h1 : key = (⟨identifier, Window.minute, b, endpoint⟩ : RKey) <;>
    by_cases h2 : key = (⟨identifier, Window.hour, b / 60, endpoint⟩ : RKey) <;>
      by_cases h3 : key = (⟨identifier, Window.day, b / 1440, endpoint⟩ : RKey) <;>
        simp_all [Store.incr, uniformStore]

/-- One allowed `free`-tier call from the uniform state: all caps pass when
`k < 10`, and the store advances to the uniform state at `k + 1`. -/
lemma is_allowed_free_step (identifier : String) (endpoint : Option String)
    (b k t : Nat) (ht : t / 60 = b) (hk : k < 10) :
    is_allowed (uniformStore identifier endpoint b k) identifier "free"
        endpoint t =
      (⟨true, "minute", 10,
        min (min ((10 : Int) - (k + 1)) ((100 : Int) - (k + 1)))
            ((1000 : Int) - (k + 1)),
        (t / 60 + 1) * 60, none, some (k + 1, k + 1, k + 1)⟩,
       uniformStore identifier endpoint b (k + 1)) := by
  have hh := hour_bucket_of_minute_bucket ht
  have hd := day_bucket_of_minute_bucket ht
  have hmr : uniformStore identifier endpoint b k
      (minuteKey identifier endpoint t) = k := by
    simp [uniformStore, minuteKey, ht]
  have hhr : uniformStore identifier endpoint b k
      (hourKey identifier endpoint t) = k := by
    simp [uniformStore, hourKey, hh]
  have hdr : uniformStore identifier endpoint b k
      (dayKey identifier endpoint t) = k := by
    simp [uniformStore, dayKey, hd]
  rw [is_allowed]
  rw [hmr, hhr, hdr]
  have hfree : get_rate_limits "free" = (10, 100, 1000) := rfl
  rw [hfree]
  have c1 : ¬ ((10, 100, 1000).1 ≤ k) := by simp; omega
  have c2 : ¬ ((10, 100, 1000).2.1 ≤ k) := by simp; omega
  have c3 : ¬ ((10, 100, 1000).2.2 ≤ k) := by simp; omega
  rw [if_neg c1, if_neg c2, if_neg c3]
  rw [minuteKey, hourKey, dayKey, ht, hh, hd, incr3_uniformStore]
  rfl

/-- The eleventh-and-later `free`-tier call from the uniform state at 10:
rejected on the minute window with the exact record the source builds originally,
and the store untouched. -/
lemma is_allowed_free_reject (identifier : String) (endpoint : Option String)
    (b t : Nat) (ht : t / 60 = b) :
    is_allowed (uniformStore identifier endpoint b 10) identifier "free"
        endpoint t =
      (⟨false, "minute", 10, 0, (t / 60 + 1) * 60,
        some ((((t / 60 + 1) * 60 : Nat) : Int) - (t : Int)), none⟩,
       uniformStore identifier endpoint b 10) := by
  have hmr : uniformStore identifier endpoint b 10
      (minuteKey identifier endpoint t) = 10 := by
    simp [uniformStore, minuteKey, ht]
  rw [is_allowed, hmr]
  simp [get_rate_limits]

/-- Sequential `free`-tier calls in one minute bucket: starting from the
uniform state at `k`, as long as `k + |ts| ≤ 10` every call is allowed and
the store ends at the uniform state `k + |ts|`. -/
lemma callSeq_free_all_allowed (identifier : String) (endpoint : Option String)
    (b : Nat) :
    ∀ (ts : List Nat) (k : Nat), (∀ t ∈ ts, t / 60 = b) →
      k + ts.length ≤ 10 →
      (∀ r ∈ (callSeq (uniformStore identifier endpoint b k) identifier
          "free" endpoint ts).1, r.allowed = true) ∧
      (callSeq (uniformStore identifier endpoint b k) identifier "free"
          endpoint ts).2 = uniformStore identifier endpoint b (k + ts.length)
  | [], k, _, _ => by simp [callSeq]
  | t :: ts, k, hb, hlen => by
      have ht : t / 60 = b := hb t (List.mem_cons_self t ts)
      have hk : k < 10 := by
        have := hlen
        simp [List.length_cons] at this
        omega
      have hstep := is_allowed_free_step identifier endpoint b k t ht hk
      have hrest := callSeq_free_all_allowed identifier endpoint b ts (k + 1)
        (fun t2 h2 => hb t2 (List.mem_cons_of_mem t h2))
        (by simp [List.length_cons] at hlen; omega)
      rw [callSeq, hstep]
      refine ⟨?_, ?_⟩
      · intro r hr
        simp only [List.mem_cons] at hr
        rcases hr with h | h
        · subst h; rfl
        · exact hrest.1 r h
      · simpa [List.length_cons, Nat.add_assoc, Nat.add_comm 1 ts.length]
          using hrest.2

/-- C3.  For a fresh identifier on tier `free`, ten sequential
`is_allowed` calls whose timestamps all fall in one minute bucket are all
allowed, and an eleventh call in that same bucket is rejected with
`limit_type = "minute"`, `remaining = 0`, and `retry_after` equal to the
number of seconds until the next minute boundary. -/
theorem free_tier_ten_allowed_eleventh_blocked
    (identifier : String) (endpoint : Option String) (ts : List Nat)
    (t11 : Nat) (hlen : ts.length = 10)
    (hb : ∀ t ∈ ts, t / 60 = t11 / 60) :
    (∀ r ∈ (callSeq Store.empty identifier "free" endpoint ts).1,
      r.allowed = true) ∧
    (is_allowed (callSeq Store.empty identifier "free" endpoint ts).2
        identifier "free" endpoint t11).1 =
      ⟨false, "minute", 10, 0, (t11 / 60 + 1) * 60,
        some ((((t11 / 60 + 1) * 60 : Nat) : Int) - (t11 : Int)), none⟩ := by
  have h0 := callSeq_free_all_allowed identifier endpoint (t11 / 60) ts 0 hb
    (by omega)
  rw [uniformStore_zero] at h0
  refine ⟨h0.1, ?_⟩
  rw [h0.2, Nat.zero_add, hlen,
    is_allowed_free_reject identifier endpoint (t11 / 60) t11 rfl]

theorem free_tier_ten_allowed_eleventh_blocked_witness :
    ((callSeq Store.empty "u" "free" none (List.replicate 10 5)).1.map
      RLResult.allowed = List.replicate 10 true) ∧
    (is_allowed (callSeq Store.empty "u" "free" none
        (List.replicate 10 5)).2 "u" "free" none 7).1 =
      ⟨false, "minute", 10, 0, (7 / 60 + 1) * 60,
        some ((((7 / 60 + 1) * 60 : Nat) : Int) - ((7 : Nat) : Int)), none⟩ :=
  ⟨by decide,
    (free_tier_ten_allowed_eleventh_blocked "u" none (List.replicate 10 5) 7
      (by decide) (by decide)).2⟩

/-- C9.  Whenever `is_allowed` rejects a request, the store is returned
unchanged: no window counter of any identifier is incremented or otherwise
modified by the call. -/
theorem rejected_call_leaves_store_unchanged
    (s : Store) (identifier tier : String) (endpoint : Option String)
    (t : Nat)
    (h : (is_allowed s identifier tier endpoint t).1.allowed = false) :
    (is_allowed s identifier tier endpoint t).2 = s := by
  simp only [is_allowed] at h ⊢
  split_ifs at h ⊢ <;> simp_all

theorem rejected_call_leaves_store_unchanged_witness :
    (is_allowed (uniformStore "u" none 0 10) "u" "free" none 0).2 =
      uniformStore "u" none 0 10 :=
  rejected_call_leaves_store_unchanged (uniformStore "u" none 0 10) "u"
    "free" none 0 (by decide)

/-- C1 (refutation).  The check-then-increment sequence in `is_allowed` is
not atomic: after nine allowed `free`-tier calls (minute cap 10, so exactly
one slot remains), two racing calls that each finish their three counter
reads before either executes its increment pipeline BOTH return
`allowed = true`, and the minute counter of the shared bucket ends at 11 —
`limit + 1` requests admitted in one bucket. -/
theorem race_admits_eleventh_request :
    ((callSeq Store.empty "u" "free" none (List.replicate 9 0)).1.map
      RLResult.allowed = List.replicate 9 true) ∧
    ((rlRace "u" "free" none 0 [false, false, false, true, true, true,
        false, true]
        (RLThread.start, RLThread.start,
          (callSeq Store.empty "u" "free" none (List.replicate 9 0)).2)).1.pc
      = RLPC.done true) ∧
    ((rlRace "u" "free" none 0 [false, false, false, true, true, true,
        false, true]
        (RLThread.start, RLThread.start,
          (callSeq Store.empty "u" "free" none
            (List.replicate 9 0)).2)).2.1.pc = RLPC.done true) ∧
    ((rlRace "u" "free" none 0 [false, false, false, true, true, true,
        false, true]
        (RLThread.start, RLThread.start,
          (callSeq Store.empty "u" "free" none (List.replicate 9 0)).2)).2.2
        (minuteKey "u" none 0) = 11) ∧
    (get_rate_limits "free").1 = 10 := by
  exact ⟨by decide, by decide, by decide, by decide, by decide⟩

/-- C4.  When the availability probe reports the counting store
unreachable, the middleware passes the request straight through to the
application: the downstream response comes back with its status untouched
(never a 429 and never an error for the outage) and with the
`X-RateLimit-Status: disabled` / `X-RateLimit-Reason: redis-unavailable`
metadata appended, and the store is untouched.  The hypotheses restrict to
requests the middleware actually rate-limits (an `/api/` path not in the
exclusion list) — on all other paths the probe is never consulted and the
request passes through unconditionally. -/
theorem redis_down_fails_open
    (path : String) (identifier : Option String) (tier : String)
    (s : Store) (t : Nat) (downstream : HttpResponse)
    (hexc : excluded_paths.any (fun p => pathStarts path p) = false)
    (hapi : pathStarts path "/api/" = true) :
    dispatch path false identifier tier s t downstream =
      (⟨downstream.status,
        downstream.headers ++
          [("X-RateLimit-Status", "disabled"),
           ("X-RateLimit-Reason", "redis-unavailable")]⟩, s) := by
  simp [dispatch, hexc, hapi]

theorem redis_down_fails_open_witness :
    dispatch "/api/v1/qr/decode" false (some "u") "free" Store.empty 0
        ⟨200, []⟩ =
      (⟨200,
        [("X-RateLimit-Status", "disabled"),
         ("X-RateLimit-Reason", "redis-unavailable")]⟩, Store.empty) :=
  redis_down_fails_open "/api/v1/qr/decode" (some "u") "free" Store.empty 0
    ⟨200, []⟩ (by decide) (by decide)

/-! ## Color validator lemmas -/

lemma hexBody_all_hex (s : String) : ∀ c ∈ hexBody s, isHexChar c = true :=
  fun _ hc => List.of_mem_filter hc

lemma upperHex_of_hex {c : Char} (h : isHexChar c = true) :
    ("0123456789ABCDEF".toList).elem c.toUpper = true := by
  have hmem : c ∈ hexChars := by
    rw [isHexChar] at h
    exact List.elem_iff.mp h
  have hall : ∀ x ∈ hexChars,
      ("0123456789ABCDEF".toList).elem x.toUpper = true := by decide
  exact hall c hmem

/-- `#` followed by six hex digits uppercases to a canonical color. -/
lemma canonical_of_hash_hex (rest : List Char) (hlen : rest.length = 6)
    (hhex : ∀ c ∈ rest, isHexChar c = true) :
    isCanonicalHexColor (String.mk (('#' :: rest).map Char.toUpper)) =
      true := by
  have hupper : Char.toUpper '#' = '#' := by decide
  simp only [isCanonicalHexColor, List.map_cons, hupper, String.toList]
  simp only [Bool.and_eq_true, List.length_map, hlen, decide_eq_true_eq,
    List.all_eq_true, List.mem_map]
  refine ⟨trivial, ?_⟩
  rintro x ⟨y, hy, rfl⟩
  exact upperHex_of_hex (hhex y hy)

/-- C5 (counterexample).  `"GG112233"` is not a valid hex color — it has no
leading `#` and contains non-hex characters — yet the validator does not
default it to `"#000000"`: it strips the `G`s, is left with six hex digits,
and returns `"#112233"`. -/
theorem malformed_color_not_defaulted :
    isValidHexColor "GG112233" = false ∧
    validate_color "GG112233" = "#112233" ∧
    validate_color "GG112233" ≠ "#000000" := by
  refine ⟨by decide, by decide, by decide⟩

/-- C5 (amended).  The validator outputs `"#000000"` exactly for those
inputs whose hex-digit content (after prepending a missing `#` and dropping
every non-hex character) has length neither 3 nor 6 — in particular for
`"red"` (two hex digits survive) and `"#12"`. -/
theorem garbled_color_defaults_black (s : String)
    (h3 : (hexBody s).length ≠ 3) (h6 : (hexBody s).length ≠ 6) :
    validate_color s = "#000000" := by
  rw [validate_color]
  rcases hb : hexBody s with _ | ⟨a, _ | ⟨b, _ | ⟨c, _ | ⟨d, l⟩⟩⟩⟩ <;>
    rw [hb] at h3 h6 <;> simp_all

theorem garbled_color_defaults_black_witness :
    (hexBody "red").length ≠ 3 ∧ (hexBody "red").length ≠ 6 ∧
    validate_color "red" = "#000000" ∧ validate_color "#12" = "#000000" :=
  ⟨by decide, by decide,
    garbled_color_defaults_black "red" (by decide) (by decide),
    garbled_color_defaults_black "#12" (by decide) (by decide)⟩

/-- C10.  On every input the validator returns `#` followed by exactly six
uppercase hex digits, and a three-hex-digit input is expanded by doubling
each digit rather than being replaced by `"#000000"`. -/
theorem validate_color_canonical_and_shorthand :
    (∀ s : String, isCanonicalHexColor (validate_color s) = true) ∧
    validate_color "#1a2" = "#11AA22" ∧
    validate_color "abc" = "#AABBCC" := by
  refine ⟨?_, by decide, by decide⟩
  intro s
  have hhex := hexBody_all_hex s
  rw [validate_color]
  rcases hb : hexBody s with _ | ⟨a, _ | ⟨b, _ | ⟨c, _ | ⟨d, l⟩⟩⟩⟩
  · decide
  · show isCanonicalHexColor (String.mk (List.map Char.toUpper
      (if ([a] : List Char).length = 6 then '#' :: [a]
       else "#000000".toList))) = true
    rw [if_neg (by simp)]
    decide
  · show isCanonicalHexColor (String.mk (List.map Char.toUpper
      (if ([a, b] : List Char).length = 6 then '#' :: [a, b]
       else "#000000".toList))) = true
    rw [if_neg (by simp)]
    decide
  · -- three hex digits: doubled into six
    refine canonical_of_hash_hex [a, a, b, b, c, c] rfl ?_
    intro x hx
    have ha := hhex a (by rw [hb]; exact List.mem_cons_self a [b, c])
    have hb2 := hhex b (by rw [hb]; simp)
    have hc := hhex c (by rw [hb]; simp)
    simp only [List.mem_cons, List.not_mem_nil, or_false] at hx
    rcases hx with rfl | rfl | rfl | rfl | rfl | rfl <;> assumption
  · -- four or more hex digits: kept only when exactly six survive
    show isCanonicalHexColor (String.mk (List.map Char.toUpper
      (if (a :: b :: c :: d :: l).length = 6 then '#' :: (a :: b :: c :: d :: l)
       else "#000000".toList))) = true
    by_cases h6 : (a :: b :: c :: d :: l).length = 6
    · rw [if_pos h6]
      refine canonical_of_hash_hex (a :: b :: c :: d :: l) h6 ?_
      intro x hx
      exact hhex x (hb ▸ hx)
    · rw [if_neg h6]
      decide

/-- C6.  On an unreadable/corrupt image source — one neither PIL nor
OpenCV can load — `decode_qr_code` returns the distinct error
`"Could not read the image file"`, and the invocation count certifies that
no decoder engine was ever run on the image: the zxing attempt dies at
`Image.open` before `read_barcodes`, and `cv2.imread` returning `None`
short-circuits before any `detectAndDecode`. -/
theorem unreadable_image_error_before_engines (f : ImageFile)
    (h : f.unreadable) :
    decode_qr_code f = ((none, some "Could not read the image file"), 0) := by
  obtain ⟨hp, hc⟩ := h
  cases hz : f.zxingAvailable <;>
    simp [decode_qr_code, decode_with_zxing, hp, hc, hz]

theorem unreadable_image_error_before_engines_witness :
    ImageFile.unreadable ⟨false, false, true, false, [], "", "", ""⟩ ∧
    decode_qr_code ⟨false, false, true, false, [], "", "", ""⟩ =
      ((none, some "Could not read the image file"), 0) :=
  ⟨by decide,
    unreadable_image_error_before_engines
      ⟨false, false, true, false, [], "", "", ""⟩ (by decide)⟩

/-- C7.  When every decode attempt fails — zxing produced no QR payload and
all three OpenCV attempts report the empty string — `decode_qr_code`
returns normally with no symbols (the payload slot is the code's `None`)
and exactly the message `"No QR code found in the image. Try using a
clearer image with better contrast."`; no exception escapes. -/
theorem no_decode_success_yields_not_found (f : ImageFile)
    (hz : (decode_with_zxing f).1 = none)
    (hc : f.cvReadable = true)
    (h1 : f.cvDirect = "") (h2 : f.cvGray = "") (h3 : f.cvThresh = "") :
    (decode_qr_code f).1 =
      (none,
        some "No QR code found in the image. Try using a clearer image with better contrast.") := by
  rw [decode_qr_code]
  rcases hzz : decode_with_zxing f with ⟨z, n⟩
  rw [hzz] at hz
  simp only at hz
  subst hz
  simp [hc, h1, h2, h3]

theorem no_decode_success_yields_not_found_witness :
    (decode_with_zxing ⟨true, true, true, false, [], "", "", ""⟩).1 = none ∧
    (decode_qr_code ⟨true, true, true, false, [], "", "", ""⟩).1 =
      (none,
        some "No QR code found in the image. Try using a clearer image with better contrast.") :=
  ⟨by decide,
    no_decode_success_yields_not_found ⟨true, true, true, false, [], "", "", ""⟩
      (by decide) (by decide) (by decide) (by decide) (by decide)⟩

/-! ### Binary64 rounding lemmas -/

lemma int_log_eq {q : ℚ} {a : Int} (hq : 0 < q) (h1 : (2 : ℚ) ^ a ≤ q)
    (h2 : q < (2 : ℚ) ^ (a + 1)) : Int.log 2 q = a := by
  have h1x : (((2 : ℕ) : ℚ)) ^ a ≤ q := by exact_mod_cast h1
  have h2x : q < (((2 : ℕ) : ℚ)) ^ (a + 1) := by exact_mod_cast h2
  have hle : a ≤ Int.log 2 q :=
    (Int.zpow_le_iff_le_log (by norm_num) hq).mp h1x
  have hlt : Int.log 2 q < a + 1 :=
    (Int.lt_zpow_iff_log_lt (by norm_num) hq).mp h2x
  omega

lemma int_floor_eq {q : ℚ} {n : Int} (h1 : (n : ℚ) ≤ q) (h2 : q < n + 1) :
    ⌊q⌋ = n :=
  Int.floor_eq_iff.mpr ⟨h1, h2⟩

/-- Evaluate `fl64Pos` from certificates: exponent bracket, significand
floor, and a below-half fraction (the round-down case). -/
lemma fl64Pos_eval {q r : ℚ} {e n : Int} (hq : 0 < q)
    (h1 : (2 : ℚ) ^ e ≤ q) (h2 : q < (2 : ℚ) ^ (e + 1))
    (hn1 : (n : ℚ) ≤ q * (2 : ℚ) ^ (52 - e))
    (hn2 : q * (2 : ℚ) ^ (52 - e) < n + 1)
    (hfrac : q * (2 : ℚ) ^ (52 - e) - n < 1 / 2)
    (hr : (n : ℚ) * (2 : ℚ) ^ (e - 52) = r) :
    fl64Pos q = r := by
  simp only [fl64Pos]
  rw [int_log_eq hq h1 h2, int_floor_eq hn1 hn2, if_pos hfrac, hr]

lemma fl64_eval {q r : ℚ} {e n : Int} (hq : 0 < q)
    (h1 : (2 : ℚ) ^ e ≤ q) (h2 : q < (2 : ℚ) ^ (e + 1))
    (hn1 : (n : ℚ) ≤ q * (2 : ℚ) ^ (52 - e))
    (hn2 : q * (2 : ℚ) ^ (52 - e) < n + 1)
    (hfrac : q * (2 : ℚ) ^ (52 - e) - n < 1 / 2)
    (hr : (n : ℚ) * (2 : ℚ) ^ (e - 52) = r) :
    fl64 q = r := by
  rw [fl64, if_neg (ne_of_gt hq), if_pos hq]
  exact fl64Pos_eval hq h1 h2 hn1 hn2 hfrac hr

/-- Correct rounding loses at most half an ulp, hence at most a `2^-53`
relative error downward. -/
lemma fl64Pos_ge {q : ℚ} (hq : 0 < q) : q - q / 2 ^ 53 ≤ fl64Pos q := by
  simp only [fl64Pos]
  set e := Int.log 2 q with he
  set m0 : ℚ := q * (2 : ℚ) ^ (52 - e) with hm0def
  set n := ⌊m0⌋ with hn
  have hfl : (n : ℚ) ≤ m0 := Int.floor_le m0
  have hfl2 : m0 < n + 1 := Int.lt_floor_add_one m0
  have hm : m0 - 1 / 2 ≤ ((if m0 - n < 1 / 2 then n
      else if 1 / 2 < m0 - n then n + 1
      else if n % 2 = 0 then n else n + 1 : Int) : ℚ) := by
    split_ifs <;> push_cast <;> linarith
  have hpow : (0 : ℚ) < (2 : ℚ) ^ (e - 52) := by positivity
  have hstep := mul_le_mul_of_nonneg_right hm (le_of_lt hpow)
  have hid1 : m0 * (2 : ℚ) ^ (e - 52) = q := by
    rw [hm0def, mul_assoc, ← zpow_add₀ (by norm_num : (2 : ℚ) ≠ 0)]
    norm_num
  have h2e : (2 : ℚ) ^ e ≤ q := Int.zpow_log_le_self (by norm_num) hq
  have key : (1 / 2 : ℚ) * (2 : ℚ) ^ (e - 52) = (2 : ℚ) ^ (e - 53) := by
    rw [show (1 / 2 : ℚ) = (2 : ℚ) ^ (-1 : Int) by norm_num,
      ← zpow_add₀ (by norm_num : (2 : ℚ) ≠ 0)]
    congr 1
    ring
  have key2 : (2 : ℚ) ^ (e - 53) ≤ q * (2 : ℚ) ^ (-53 : Int) := by
    rw [show e - 53 = e + (-53) by ring,
      zpow_add₀ (by norm_num : (2 : ℚ) ≠ 0)]
    exact mul_le_mul_of_nonneg_right h2e (by positivity)
  have key3 : q * (2 : ℚ) ^ (-53 : Int) = q / 2 ^ 53 := by
    rw [show ((2 : ℚ) ^ (-53 : Int)) = 1 / 2 ^ 53 by norm_num]
    ring
  rw [sub_mul, hid1] at hstep
  have key4 : (2 : ℚ) ^ (e - 53) ≤ q / 2 ^ 53 := by
    rw [← key3]
    exact key2
  calc q - q / 2 ^ 53 ≤ q - (2 : ℚ) ^ (e - 53) := by linarith
    _ = q - 1 / 2 * (2 : ℚ) ^ (e - 52) := by rw [key]
    _ ≤ _ := hstep

lemma fl64_ge {q : ℚ} (hq : 0 < q) : q - q / 2 ^ 53 ≤ fl64 q := by
  rw [fl64, if_neg (ne_of_gt hq), if_pos hq]
  exact fl64Pos_ge hq

lemma fl64_pos {q : ℚ} (hq : 0 < q) : 0 < fl64 q := by
  have h1 := fl64_ge hq
  have h2 : q / 2 ^ 53 < q := div_lt_self hq (by norm_num)
  linarith

/-- Core bound for the resize branch: the dimension `X` is at least the
minimum dimension `m`, the scale is at least the rounded `100/m`, and three
correctly rounded operations lose at most a `(1 - 2^-53)^3` factor, which
keeps the rounded product above 99. -/
lemma thumb_dim_ge {X m s : ℚ} (hm : 0 < m) (hX : m ≤ X)
    (hs : fl64 (100 / m) ≤ s) :
    (99 : ℚ) ≤ fl64 (fl64 X * s) := by
  have hXpos : 0 < X := lt_of_lt_of_le hm hX
  have hu : (0 : ℚ) < 1 - 1 / 2 ^ 53 := by norm_num
  have hfX : (1 - 1 / 2 ^ 53) * X ≤ fl64 X := by
    have h1 := fl64_ge hXpos
    have h2 : (1 - 1 / 2 ^ 53) * X = X - X / 2 ^ 53 := by ring
    linarith
  have hfXm : (1 - 1 / 2 ^ 53) * m ≤ fl64 X :=
    le_trans (mul_le_mul_of_nonneg_left hX (le_of_lt hu)) hfX
  have hq100 : (0 : ℚ) < 100 / m := by positivity
  have hfs : (1 - 1 / 2 ^ 53) * (100 / m) ≤ s := by
    have h1 := fl64_ge hq100
    have h2 : (1 - 1 / 2 ^ 53) * (100 / m) = 100 / m - (100 / m) / 2 ^ 53 := by
      ring
    linarith
  have hXf_pos : 0 < fl64 X := fl64_pos hXpos
  have hs_pos : 0 < s :=
    lt_of_lt_of_le (by positivity : (0 : ℚ) < (1 - 1 / 2 ^ 53) * (100 / m)) hfs
  have hprod : (1 - 1 / 2 ^ 53) ^ 2 * 100 ≤ fl64 X * s := by
    have h1 : ((1 - 1 / 2 ^ 53) * m) * ((1 - 1 / 2 ^ 53) * (100 / m)) ≤
        fl64 X * s :=
      mul_le_mul hfXm hfs (by positivity) (le_of_lt hXf_pos)
    have h2 : ((1 - 1 / 2 ^ 53) * m) * ((1 - 1 / 2 ^ 53) * (100 / m)) =
        (1 - 1 / 2 ^ 53) ^ 2 * 100 := by
      field_simp
      ring
    linarith
  have hprod_pos : 0 < fl64 X * s :=
    mul_pos hXf_pos hs_pos
  have h3 : (1 - 1 / 2 ^ 53) * (fl64 X * s) ≤ fl64 (fl64 X * s) := by
    have h1 := fl64_ge hprod_pos
    have h2 : (1 - 1 / 2 ^ 53) * (fl64 X * s) =
        fl64 X * s - (fl64 X * s) / 2 ^ 53 := by ring
    linarith
  have h4 : (1 - 1 / 2 ^ 53) * ((1 - 1 / 2 ^ 53) ^ 2 * 100) ≤
      (1 - 1 / 2 ^ 53) * (fl64 X * s) :=
    mul_le_mul_of_nonneg_left hprod (le_of_lt hu)
  have h5 : (99 : ℚ) ≤ (1 - 1 / 2 ^ 53) * ((1 - 1 / 2 ^ 53) ^ 2 * 100) := by
    norm_num
  linarith

lemma thumb_dim_floor_ge {X m s : ℚ} (hm : 0 < m) (hX : m ≤ X)
    (hs : fl64 (100 / m) ≤ s) : (99 : Int) ≤ ⌊fl64 (fl64 X * s)⌋ :=
  Int.le_floor.mpr (by exact_mod_cast thumb_dim_ge hm hX hs)

/-! ### Concrete binary64 evaluations (cross-checked against IEEE doubles) -/

lemma fl64_100_div_97 :
    fl64 ((100 : ℚ) / 97) = 290180388361501 / 281474976710656 :=
  fl64_eval (e := 0) (n := 4642886213784016) (by norm_num) (by norm_num)
    (by norm_num) (by norm_num) (by norm_num) (by norm_num) (by norm_num)

lemma fl64_97 : fl64 (97 : ℚ) = 97 :=
  fl64_eval (e := 6) (n := 6825768185233408) (by norm_num) (by norm_num)
    (by norm_num) (by norm_num) (by norm_num) (by norm_num) (by norm_num)

lemma fl64_prod97 :
    fl64 ((28147497671065597 : ℚ) / 281474976710656) =
      7036874417766399 / 70368744177664 :=
  fl64_eval (e := 6) (n := 7036874417766399) (by norm_num) (by norm_num)
    (by norm_num) (by norm_num) (by norm_num) (by norm_num) (by norm_num)

lemma fl64_two : fl64 (2 : ℚ) = 2 :=
  fl64_eval (e := 1) (n := 4503599627370496) (by norm_num) (by norm_num)
    (by norm_num) (by norm_num) (by norm_num) (by norm_num) (by norm_num)

lemma fl64_fifty : fl64 (50 : ℚ) = 50 :=
  fl64_eval (e := 5) (n := 7036874417766400) (by norm_num) (by norm_num)
    (by norm_num) (by norm_num) (by norm_num) (by norm_num) (by norm_num)

lemma fl64_hundred : fl64 (100 : ℚ) = 100 :=
  fl64_eval (e := 6) (n := 7036874417766400) (by norm_num) (by norm_num)
    (by norm_num) (by norm_num) (by norm_num) (by norm_num) (by norm_num)

/-- C8 (counterexample).  Two concrete refutations of the claim: on the
50×50 box `(0, 0, 50, 50)` the region read from the source image is exactly
that 50×50 box — it is NOT expanded to a ≥100px minimum dimension before
the crop is taken; only the already-cropped pixels are upscaled afterwards.
And on the 97×97 box, float rounding (`97 * (100/97) < 100` in binary64)
leaves the thumbnail at 99×99, below the claimed ≥100px minimum. -/
theorem context_crop_box_not_expanded :
    context_crop 0 0 50 50 = some ⟨0, 0, 50, 50, 100, 100⟩ ∧
    ((50 : Int) - 0 < 100) ∧
    context_crop 0 0 97 97 = some ⟨0, 0, 97, 97, 99, 99⟩ ∧
    ((99 : Int) < 100) := by
  have hf99 : (⌊(7036874417766399 : ℚ) / 70368744177664⌋ : Int) = 99 :=
    int_floor_eq (by norm_num) (by norm_num)
  refine ⟨?_, by norm_num, ?_, by norm_num⟩
  · simp only [context_crop]
    norm_num [fl64_two, fl64_fifty, fl64_hundred]
  · simp only [context_crop]
    norm_num [fl64_100_div_97, fl64_97, fl64_prod97, hf99]

/-- C8 (amended).  For every box of positive extent (and dimensions at most
`2^60`, far beyond any image, keeping the model inside the binary64 normal
range), the crop is taken from the source image at exactly the given box —
the box is not expanded — and when the crop's width or height is below 100
pixels the cropped pixels are proportionally upscaled by the float factor
`max(100/width, 100/height)`, bringing the thumbnail's minimum dimension to
at least 99 pixels; float rounding can leave it at 99 rather than 100. -/
theorem context_crop_thumbnail_min_dim (left top right bottom : Int)
    (hw : 0 < right - left) (hh : 0 < bottom - top)
    (hwB : right - left ≤ 2 ^ 60) (hhB : bottom - top ≤ 2 ^ 60) :
    ∃ o : CropOut, context_crop left top right bottom = some o ∧
      o.srcLeft = left ∧ o.srcTop = top ∧ o.srcRight = right ∧
      o.srcBottom = bottom ∧ 99 ≤ o.outW ∧ 99 ≤ o.outH := by
  rw [context_crop]
  have hne : ¬ (right - left ≤ 0 ∨ bottom - top ≤ 0) := by omega
  rw [if_neg hne]
  set w : Int := right - left with hwdef
  set h : Int := bottom - top with hhdef
  have hwq : (0 : ℚ) < (w : ℚ) := by exact_mod_cast hw
  have hhq : (0 : ℚ) < (h : ℚ) := by exact_mod_cast hh
  by_cases hsmall : w < 100 ∨ h < 100
  · rw [if_pos hsmall]
    refine ⟨_, rfl, rfl, rfl, rfl, rfl, ?_, ?_⟩
    · show (99 : Int) ≤ ⌊fl64 (fl64 (w : ℚ) *
        max (fl64 ((100 : ℚ) / (w : ℚ))) (fl64 ((100 : ℚ) / (h : ℚ))))⌋
      rcases le_total w h with hwh | hwh
      · exact thumb_dim_floor_ge hwq le_rfl (le_max_left _ _)
      · exact thumb_dim_floor_ge hhq (by exact_mod_cast hwh)
          (le_max_right _ _)
    · show (99 : Int) ≤ ⌊fl64 (fl64 (h : ℚ) *
        max (fl64 ((100 : ℚ) / (w : ℚ))) (fl64 ((100 : ℚ) / (h : ℚ))))⌋
      rcases le_total w h with hwh | hwh
      · exact thumb_dim_floor_ge hwq (by exact_mod_cast hwh)
          (le_max_left _ _)
      · exact thumb_dim_floor_ge hhq le_rfl (le_max_right _ _)
  · rw [if_neg hsmall]
    refine ⟨_, rfl, rfl, rfl, rfl, rfl, ?_, ?_⟩
    · show (99 : Int) ≤ w
      omega
    · show (99 : Int) ≤ h
      omega

theorem context_crop_thumbnail_min_dim_witness :
    context_crop 0 0 50 50 = some ⟨0, 0, 50, 50, 100, 100⟩ := by
  obtain ⟨o, ho, h1, h2, h3, h4, h5, h6⟩ :=
    context_crop_thumbnail_min_dim 0 0 50 50 (by norm_num) (by norm_num)
      (by norm_num) (by norm_num)
  have hcomp : context_crop 0 0 50 50 = some ⟨0, 0, 50, 50, 100, 100⟩ := by
    simp only [context_crop]
    norm_num [fl64_two, fl64_fifty, fl64_hundred]
  exact hcomp

end QrScanner
